import Mathlib

/-!
# Verification of the claim-validation pipeline (`validation.py`)

Shallow embedding of the claim-validation pipeline: data model (`models.py`),
claim linking, source retrieval, per-claim validation, trust scoring, report
generation and the orchestrator (`validation.py`).

Modelling conventions:
* Python floats are modelled as rationals (`ℚ`); `round(x, 1)` is modelled by
  `roundTo1` (round to the nearest tenth).  The tie-breaking mode of the
  rounding never matters for the statements proved here, because both sides of
  every equation use the same `roundTo1`.
* The LLM / scraping capabilities are modelled as explicit function arguments
  returning `Except String _` (an exception is `Except.error`).
* `None` / optional fields are `Option`; Python truthiness of an optional
  string (`if s.content`) is "is `some` and non-empty".
-/

namespace TruthLayer

/-- The four validation statuses of `ValidationResult.status`
(`models.py`, the `Literal` type). -/
inductive Status : Type
  | SUPPORTED
  | PARTIALLY_SUPPORTED
  | CONTRADICTED
  | UNVERIFIABLE
deriving DecidableEq, Repr

/-- `Source` model (`models.py`): id, url, optional title, optional content. -/
structure Source : Type where
  id : String
  url : String
  title : Option String
  content : Option String
deriving DecidableEq, Repr

/-- `Claim` model (`models.py`). -/
structure Claim : Type where
  id : String
  statement : String
  verification_question : String
  source_urls : List String
  source_ids : List String
deriving DecidableEq, Repr

/-- `ValidationResult` model (`models.py`); `confidence` is a rational. -/
structure ValidationResult : Type where
  claim_id : String
  statement : String
  verification_question : String
  status : Status
  confidence : ℚ
  reasoning : String
  has_contradictions : Bool
deriving DecidableEq, Repr

/-- `ExtractedReport` model (`models.py`). -/
structure ExtractedReport : Type where
  claims : List Claim
  sources : List Source
deriving DecidableEq, Repr

/-- `TrustReport` model (`models.py`); the `results` dict has exactly the four
status keys, so it is modelled as a total function on `Status`. -/
structure TrustReport : Type where
  id : String
  timestamp : String
  trust_score : ℚ
  claim_count : ℕ
  results : Status → ℕ
  has_contradictions : Bool

/-- The weight table of `calculate_trust_score` (`validation.py` line 259). -/
def weight : Status → ℚ
  | .SUPPORTED => 1
  | .PARTIALLY_SUPPORTED => 1/2
  | .CONTRADICTED => 0
  | .UNVERIFIABLE => 1/5

/-- Python `round(x, 1)`: round to one decimal place. -/
def roundTo1 (q : ℚ) : ℚ := (round (10 * q) : ℤ) / 10

/-- The number of results with `has_contradictions=true`
(`validation.py` lines 277-279). -/
def contradictionCount (rs : List ValidationResult) : ℕ :=
  (rs.filter (fun r => r.has_contradictions)).length

/-- The contradiction penalty `min(20, count * 5)` of `calculate_trust_score`
(`validation.py` line 281). -/
def contradictionPenalty (rs : List ValidationResult) : ℚ :=
  min 20 ((contradictionCount rs : ℚ) * 5)

/-- `calculate_trust_score` (`validation.py` lines 254-287), translated
branch by branch: the empty-list guard, the redundant `max_score == 0` guard,
the status-weight average scaled to 0-100, the contradiction penalty applied
only when at least one result is flagged, and the final rounding. -/
def calculate_trust_score (validation_results : List ValidationResult) : ℚ :=
  if validation_results = [] then 0
  else
    let score_sum := (validation_results.map (fun r => weight r.status)).sum
    let max_score : ℚ := validation_results.length
    if max_score = 0 then 0
    else
      let trust_score := score_sum / max_score * 100
      let trust_score :=
        if 0 < contradictionCount validation_results then
          max 0 (trust_score - contradictionPenalty validation_results)
        else trust_score
      roundTo1 trust_score

/-- Python `s.startswith(p)`. -/
def startsWithStr (s p : String) : Bool := List.isPrefixOf p.data s.data

/-- Python truthiness-plus-filter of `validate_claim` (`validation.py` line
153): `s.content and not s.content.startswith("Error")`. -/
def contentOk (c : Option String) : Bool :=
  match c with
  | none => false
  | some s => s ≠ "" && !(startsWithStr s "Error")

/-- The evidence selection of `validate_claim` (`validation.py` lines
150-154): sources cited by the claim with truthy, non-error content. -/
def claimSources (claim : Claim) (sources : List Source) : List Source :=
  sources.filter (fun s => claim.source_ids.contains s.id && contentOk s.content)

/-- The `UNVERIFIABLE` fallback returned by `validate_claim` when no valid
source content is available (`validation.py` lines 160-168). -/
def noEvidenceResult (claim : Claim) : ValidationResult :=
  { claim_id := claim.id
    statement := claim.statement
    verification_question := claim.verification_question
    status := .UNVERIFIABLE
    confidence := 0
    reasoning := "No valid source content available for this claim after fetching."
    has_contradictions := false }

/-- The `UNVERIFIABLE` fallback returned by `validate_claim` on a judgment
capability error (`validation.py` lines 225-233). -/
def errorResult (claim : Claim) (e : String) : ValidationResult :=
  { claim_id := claim.id
    statement := claim.statement
    verification_question := claim.verification_question
    status := .UNVERIFIABLE
    confidence := 0
    reasoning := "Validation failed due to an error: " ++ e
    has_contradictions := false }

/-- The judgment capability (the `validator_client` structured LLM call):
given the claim and its evidence sources it either returns a parsed
`ValidationResult` or raises. -/
def JudgeCapability : Type := Claim → List Source → Except String ValidationResult

/-- `validate_claim` (`validation.py` lines 145-233): select evidence, return
the no-evidence fallback if it is empty, otherwise call the judgment
capability; on success overwrite `claim_id`, `statement` and
`verification_question` from the input claim, on error return the error
fallback. -/
def validate_claim (judge : JudgeCapability) (claim : Claim)
    (sources : List Source) : ValidationResult :=
  let claim_sources := claimSources claim sources
  if claim_sources = [] then noEvidenceResult claim
  else
    match judge claim claim_sources with
    | .ok result =>
        { result with
            claim_id := claim.id
            statement := claim.statement
            verification_question := claim.verification_question }
    | .error e => errorResult claim e

/-- `validate_all_claims` (`validation.py` lines 236-251): validate each claim
in input order; `validate_claim` always returns a (truthy) result, so every
claim contributes exactly one entry. -/
def validate_all_claims (judge : JudgeCapability) (claims : List Claim)
    (sources : List Source) : List ValidationResult :=
  claims.map (fun claim => validate_claim judge claim sources)

/-- One dict insertion `url ↦ id` of the `url_to_source_id` comprehension
(`validation.py` line 86), overwriting any earlier binding of the url. -/
def urlStep (m : String → Option String) (s : Source) : String → Option String :=
  fun u => if u = s.url then some s.id else m u

/-- The `url_to_source_id` dict comprehension of `extract_claims_and_sources`
(`validation.py` line 86): built by inserting each source's `url ↦ id` in
order, a later source with the same url overwriting an earlier one. -/
def urlToSourceId (sources : List Source) : String → Option String :=
  sources.foldl urlStep (fun _ => none)

/-- The claim-linking loop body of `extract_claims_and_sources`
(`validation.py` lines 87-95): map the claim's `source_urls` through the
url-to-id mapping, dropping urls with no match (the trailing `None` filter of
the source never fires because `get` is guarded by `in`). -/
def link_claim (m : String → Option String) (claim : Claim) : Claim :=
  { claim with source_ids := claim.source_urls.filterMap m }

/-- The claim-linking post-processing step of `extract_claims_and_sources`
(`validation.py` lines 86-95) applied to every claim. -/
def link_claims (sources : List Source) (claims : List Claim) : List Claim :=
  claims.map (link_claim (urlToSourceId sources))

/-- The whitespace characters matched by the regex `\s` of
`fetch_sources` (`validation.py` line 126). -/
def isSpaceChar (c : Char) : Bool :=
  c = ' ' || c = '\t' || c = '\n' || c = '\r' || c = '\x0b' || c = '\x0c'

/-- The substitution `re.sub(r"\s{3,}", "\n\n", text)` of `fetch_sources`
(`validation.py` line 126): every maximal run of 3 or more whitespace
characters is replaced by a double newline, shorter runs are kept. -/
def collapseRuns (l : List Char) : List Char :=
  match l with
  | [] => []
  | c :: rest =>
    if isSpaceChar c then
      let run := c :: rest.takeWhile isSpaceChar
      let rest' := rest.dropWhile isSpaceChar
      (if 3 ≤ run.length then ['\n', '\n'] else run) ++ collapseRuns rest'
    else c :: collapseRuns rest
termination_by l.length
decreasing_by
  · simp only [List.length_cons]
    have h := (List.dropWhile_sublist isSpaceChar (l := rest)).length_le
    omega
  · simp only [List.length_cons]
    omega

/-- Python `str.strip()`: drop leading and trailing whitespace. -/
def stripChars (l : List Char) : List Char :=
  ((l.dropWhile isSpaceChar).reverse.dropWhile isSpaceChar).reverse

/-- The content cleaning of `fetch_sources` (`validation.py` line 126):
`re.sub(r"\s{3,}", "\n\n", markdown).strip()`. -/
def cleanContent (s : String) : String :=
  String.mk (stripChars (collapseRuns s.data))

/-- The scraping capability (`firecrawl_app.scrape_url`): given a url it
returns `ok (some markdown)` (a truthy response carrying a `"markdown"` key),
`ok none` (an empty or invalid response), or raises. -/
def ScrapeCapability : Type := String → Except String (Option String)

/-- The per-source body of the `fetch_sources` loop (`validation.py` lines
117-137): cleaned markdown on success, the empty-data sentinel when the
response is empty or has no markdown, the exception sentinel on a raised
error. -/
def fetchOne (scrape : ScrapeCapability) (source : Source) : Source :=
  match scrape source.url with
  | .ok (some markdown) => { source with content := some (cleanContent markdown) }
  | .ok none =>
      { source with
          content := some ("Error fetching content from " ++ source.url ++
            ". Firecrawl returned empty or invalid data.") }
  | .error e =>
      { source with
          content := some ("Error fetching content from " ++ source.url ++ ": " ++ e) }

/-- `fetch_sources` (`validation.py` lines 106-142): every source is processed
in input order, independently of the others. -/
def fetch_sources (scrape : ScrapeCapability) (sources : List Source) : List Source :=
  sources.map (fetchOne scrape)

/-- The `status_counts` tally of `generate_trust_report` (`validation.py`
lines 293-301): a four-key mapping initialised to 0 and incremented per
result. -/
def statusCounts (rs : List ValidationResult) : Status → ℕ :=
  rs.foldl (fun counts r => fun s => if s = r.status then counts s + 1 else counts s)
    (fun _ => 0)

/-- `generate_trust_report` (`validation.py` lines 290-315); the fresh report
id and the current timestamp are nondeterministic inputs, passed as
arguments. -/
def generate_trust_report (reportId timestamp : String)
    (validation_results : List ValidationResult) : TrustReport :=
  { id := reportId
    timestamp := timestamp
    trust_score := calculate_trust_score validation_results
    claim_count := validation_results.length
    results := statusCounts validation_results
    has_contradictions := validation_results.any (fun r => r.has_contradictions) }

/-- The extraction capability (the `extractor_client` structured LLM call):
raw report text to `ExtractedReport`, or a raised error. -/
def ExtractCapability : Type := String → Except String ExtractedReport

/-- The ID assignment of `extract_claims_and_sources` (`validation.py` lines
79-83): `source-{run}-{i}` and `claim-{run}-{i}` by position. -/
def assignIds (run : String) (r : ExtractedReport) : ExtractedReport :=
  { claims := r.claims.mapIdx (fun i c => { c with id := "claim-" ++ run ++ "-" ++ toString i })
    sources := r.sources.mapIdx (fun i s => { s with id := "source-" ++ run ++ "-" ++ toString i }) }

/-- `extract_claims_and_sources` (`validation.py` lines 50-103): call the
extraction capability (returning `none` on any raised error), assign IDs,
then link claims to source IDs.  The per-run random identifier is a
nondeterministic input, passed as an argument. -/
def extract_claims_and_sources (extractor : ExtractCapability) (run : String)
    (report_text : String) : Option ExtractedReport :=
  match extractor report_text with
  | .error _ => none
  | .ok result =>
      let result := assignIds run result
      some { result with claims := link_claims result.sources result.claims }

/-- The source list fed to validation by `validate_report` (`validation.py`
lines 330-335): fetching is skipped entirely when no sources were
extracted. -/
def pipelineSources (scrape : ScrapeCapability) (extracted : ExtractedReport) :
    List Source :=
  if extracted.sources = [] then []
  else fetch_sources scrape extracted.sources

/-- `validate_report` (`validation.py` lines 319-346): the end-to-end
pipeline.  Returns `none` when extraction fails or yields no claims, or when
validation yields no results; otherwise the triple of trust report, validation
results and extracted report. -/
def validate_report (extractor : ExtractCapability) (scrape : ScrapeCapability)
    (judge : JudgeCapability) (run reportId timestamp : String)
    (report_text : String) :
    Option (TrustReport × List ValidationResult × ExtractedReport) :=
  match extract_claims_and_sources extractor run report_text with
  | none => none
  | some extracted =>
      if extracted.claims = [] then none
      else
        let sources_with_content := pipelineSources scrape extracted
        let validation_results :=
          validate_all_claims judge extracted.claims sources_with_content
        if validation_results = [] then none
        else some (generate_trust_report reportId timestamp validation_results,
                   validation_results, extracted)

/-- The base score of the spec's scoring formula: average status weight
scaled to 0-100. -/
def baseScore (rs : List ValidationResult) : ℚ :=
  ((rs.map (fun r => weight r.status)).sum / (rs.length : ℚ)) * 100

/-- Agreement on the two fields the scorer reads: status and the
contradiction flag. -/
def sameScoreFields (r1 r2 : ValidationResult) : Prop :=
  r1.status = r2.status ∧ r1.has_contradictions = r2.has_contradictions

/-- A sample contradiction-flagged validation result. -/
def flaggedResult : ValidationResult :=
  { claim_id := "c"
    statement := "s"
    verification_question := "q"
    status := .SUPPORTED
    confidence := 0
    reasoning := "r"
    has_contradictions := true }

/-- A sample source for the linking witnesses. -/
def sourceW : Source := { id := "sA", url := "u1", title := none, content := none }

/-- A sample claim citing `u1` twice and an unresolvable url once. -/
def claimW : Claim :=
  { id := "c0"
    statement := "st"
    verification_question := "vq"
    source_urls := ["u1", "u1", "missing"]
    source_ids := [] }

/-- The fixed prefix of the fetch-error sentinel strings written by
`fetch_sources` (`validation.py` lines 130 and 135). -/
def fetchSentinelBase (url : String) : String :=
  "Error fetching content from " ++ url

/-- Modelled from the spec's words for comparison: a sentinel string "of the
form `Error fetching content from {url}[: {detail}]`" — the base alone, or
the base followed by `": "` and some detail text. -/
def specSentinelForm (url content : String) : Prop :=
  content = fetchSentinelBase url ∨
    startsWithStr content (fetchSentinelBase url ++ ": ") = true

/-- A raw extracted claim, before ID assignment and linking. -/
def rawClaimW : Claim :=
  { id := ""
    statement := "st"
    verification_question := "vq"
    source_urls := ["u1"]
    source_ids := [] }

/-- An extraction capability stub yielding one claim and one source. -/
def extractorW : ExtractCapability :=
  fun _ => Except.ok
    { claims := [rawClaimW]
      sources := [{ id := "", url := "u1", title := none, content := none }] }

/-- An extraction capability stub yielding one claim and no sources. -/
def extractorNoSrcW : ExtractCapability :=
  fun _ => Except.ok { claims := [rawClaimW], sources := [] }

/-- A judgment capability stub that always answers SUPPORTED with junk
identity fields. -/
def judgeW : JudgeCapability :=
  fun _ _ => Except.ok
    { claim_id := "junk"
      statement := "junk"
      verification_question := "junk"
      status := .SUPPORTED
      confidence := 9/10
      reasoning := "ok"
      has_contradictions := false }

/-- A scraping capability stub that always succeeds. -/
def scrapeW : ScrapeCapability := fun _ => Except.ok (some "some content")

/-- The ID-assigned, linked version of `extractorW`'s output for run `"r0"`. -/
def exLinkedW : ExtractedReport :=
  { claims := [{ id := "claim-r0-0", statement := "st", verification_question := "vq",
                 source_urls := ["u1"], source_ids := ["source-r0-0"] }]
    sources := [{ id := "source-r0-0", url := "u1", title := none, content := none }] }

/-- The ID-assigned, linked version of `extractorNoSrcW`'s output for run
`"r0"`. -/
def exNoSrcW : ExtractedReport :=
  { claims := [{ id := "claim-r0-0", statement := "st", verification_question := "vq",
                 source_urls := ["u1"], source_ids := [] }]
    sources := [] }

lemma weight_nonneg (s : Status) : 0 ≤ weight s := by
  cases s <;> norm_num [weight]

lemma sum_weights_nonneg (rs : List ValidationResult) :
    0 ≤ (rs.map (fun r => weight r.status)).sum := by
  apply List.sum_nonneg
  intro x hx
  rcases List.mem_map.mp hx with ⟨r, _, rfl⟩
  exact weight_nonneg r.status

lemma baseScore_nonneg (rs : List ValidationResult) : 0 ≤ baseScore rs := by
  have h1 := sum_weights_nonneg rs
  have h2 : (0 : ℚ) ≤ (rs.length : ℚ) := by positivity
  unfold baseScore
  positivity

lemma roundTo1_nonneg {q : ℚ} (h : 0 ≤ q) : 0 ≤ roundTo1 q := by
  unfold roundTo1
  have : (0 : ℤ) ≤ round (10 * q) := by
    rw [round_eq, Int.floor_nonneg]
    linarith
  positivity

lemma contradictionPenalty_eq_zero (rs : List ValidationResult)
    (h : contradictionCount rs = 0) : contradictionPenalty rs = 0 := by
  unfold contradictionPenalty
  rw [h]
  norm_num

lemma forall2_weight_map {rs1 rs2 : List ValidationResult}
    (h : List.Forall₂ sameScoreFields rs1 rs2) :
    rs1.map (fun r => weight r.status) = rs2.map (fun r => weight r.status) := by
  induction h with
  | nil => rfl
  | cons h _ ih => simp only [List.map_cons, ih, h.1]

lemma forall2_contradictionCount {rs1 rs2 : List ValidationResult}
    (h : List.Forall₂ sameScoreFields rs1 rs2) :
    contradictionCount rs1 = contradictionCount rs2 := by
  induction h with
  | nil => rfl
  | @cons a b l1 l2 hab _ ih =>
    unfold contradictionCount at ih ⊢
    rcases hab with ⟨-, hc⟩
    cases hb : b.has_contradictions <;>
      simp [List.filter_cons, hc, hb, ih]

/-- C1: For every list of validation results, the trust scorer returns
`round(max(0, base - penalty), 1)` where `base` is the status-weight average
scaled to 0-100 and `penalty = min(20, 5 * contradiction count)`; the empty
list yields `0.0` (no division by zero), and the returned score is never
negative. -/
theorem trust_score_formula (rs : List ValidationResult) :
    calculate_trust_score rs =
      (if rs = [] then 0
       else roundTo1 (max 0 (baseScore rs - contradictionPenalty rs))) ∧
    0 ≤ calculate_trust_score rs := by
  by_cases h : rs = []
  · simp [calculate_trust_score, h]
  · have hlen : (rs.length : ℚ) ≠ 0 := by
      simpa [List.length_eq_zero] using h
    constructor
    · unfold calculate_trust_score
      simp only [if_neg h, if_neg hlen]
      by_cases hc : 0 < contradictionCount rs
      · simp only [if_pos hc]
        rfl
      · simp only [if_neg hc]
        have hc0 : contradictionCount rs = 0 := by omega
        rw [contradictionPenalty_eq_zero rs hc0, sub_zero,
          max_eq_right (baseScore_nonneg rs)]
        rfl
    · unfold calculate_trust_score
      simp only [if_neg h, if_neg hlen]
      by_cases hc : 0 < contradictionCount rs
      · simp only [if_pos hc]
        exact roundTo1_nonneg (le_max_left 0 _)
      · simp only [if_neg hc]
        exact roundTo1_nonneg (baseScore_nonneg rs)

/-- C8: The contradiction penalty applied by the trust scorer (the
`contradictionPenalty` term of `calculate_trust_score`) is monotonically
non-decreasing in the number of contradiction-flagged results and any count of
4 or more yields exactly the maximum 20-point penalty. -/
theorem contradiction_penalty_monotone_capped (rs1 rs2 : List ValidationResult) :
    (contradictionCount rs1 ≤ contradictionCount rs2 →
      contradictionPenalty rs1 ≤ contradictionPenalty rs2) ∧
    (4 ≤ contradictionCount rs1 → contradictionPenalty rs1 = 20) := by
  constructor
  · intro h
    unfold contradictionPenalty
    have hq : (contradictionCount rs1 : ℚ) ≤ (contradictionCount rs2 : ℚ) :=
      Nat.cast_le.mpr h
    exact min_le_min le_rfl (by linarith)
  · intro h
    unfold contradictionPenalty
    have hq : (4 : ℚ) ≤ (contradictionCount rs1 : ℚ) := by exact_mod_cast h
    rw [min_eq_left (by linarith)]

/-- Witness for **C8**: 5 and 9 flagged results both hit the 20-point cap, and
the penalty for 5 is at most the penalty for 9. -/
theorem contradiction_penalty_monotone_capped_witness :
    contradictionPenalty (List.replicate 5 flaggedResult) ≤
      contradictionPenalty (List.replicate 9 flaggedResult) ∧
    contradictionPenalty (List.replicate 5 flaggedResult) = 20 ∧
    contradictionPenalty (List.replicate 9 flaggedResult) = 20 :=
  ⟨(contradiction_penalty_monotone_capped
      (List.replicate 5 flaggedResult) (List.replicate 9 flaggedResult)).1
      (by decide),
   (contradiction_penalty_monotone_capped
      (List.replicate 5 flaggedResult) []).2 (by decide),
   (contradiction_penalty_monotone_capped
      (List.replicate 9 flaggedResult) []).2 (by decide)⟩

/-- C9: The trust score does not depend on per-claim confidence (or any
field other than status and the contradiction flag): two result lists agreeing
pointwise on status and `has_contradictions` get the same score. -/
theorem trust_score_confidence_independent (rs1 rs2 : List ValidationResult)
    (h : List.Forall₂ sameScoreFields rs1 rs2) :
    calculate_trust_score rs1 = calculate_trust_score rs2 := by
  have hlen := h.length_eq
  by_cases h1 : rs1 = []
  · subst h1
    cases h
    rfl
  · have h2 : rs2 ≠ [] := by
      intro hh
      apply h1
      rw [← List.length_eq_zero, hlen, hh, List.length_nil]
    unfold calculate_trust_score contradictionPenalty
    rw [if_neg h1, if_neg h2, forall2_weight_map h, forall2_contradictionCount h,
      hlen]

/-- Witness for **C9**: two singleton lists that differ in confidence,
reasoning and identifiers but agree on status and flag score identically. -/
theorem trust_score_confidence_independent_witness :
    calculate_trust_score
        [{ claim_id := "a", statement := "s1", verification_question := "q1",
           status := .SUPPORTED, confidence := 9/10, reasoning := "reason A",
           has_contradictions := false }] =
      calculate_trust_score
        [{ claim_id := "b", statement := "s2", verification_question := "q2",
           status := .SUPPORTED, confidence := 1/10, reasoning := "reason B",
           has_contradictions := false }] :=
  trust_score_confidence_independent _ _
    (List.Forall₂.cons ⟨rfl, rfl⟩ List.Forall₂.nil)

lemma statusCounts_foldl (rs : List ValidationResult) (m : Status → ℕ) (s : Status) :
    (rs.foldl (fun counts r => fun t => if t = r.status then counts t + 1 else counts t) m) s =
      m s + (rs.filter (fun r => r.status = s)).length := by
  induction rs generalizing m with
  | nil => simp
  | cons r t ih =>
    rw [List.foldl_cons, ih]
    by_cases h : r.status = s
    · simp [List.filter_cons, h, Nat.add_assoc, Nat.add_comm 1]
    · have h' : ¬(s = r.status) := fun hh => h hh.symm
      simp [List.filter_cons, h, h']

lemma statusCounts_eq (rs : List ValidationResult) (s : Status) :
    statusCounts rs s = (rs.filter (fun r => r.status = s)).length := by
  unfold statusCounts
  rw [statusCounts_foldl]
  exact Nat.zero_add _

lemma filter_status_partition (rs : List ValidationResult) :
    (rs.filter (fun r => r.status = Status.SUPPORTED)).length +
      (rs.filter (fun r => r.status = Status.PARTIALLY_SUPPORTED)).length +
      (rs.filter (fun r => r.status = Status.CONTRADICTED)).length +
      (rs.filter (fun r => r.status = Status.UNVERIFIABLE)).length = rs.length := by
  induction rs with
  | nil => rfl
  | cons r t ih =>
    cases h : r.status <;> simp [List.filter_cons, h] <;> omega

/-- C5: For every validation result list, the report generator's `results`
mapping has exactly the four status keys, each the tally of that status
(defaulting to 0), the four counts sum exactly to `claim_count`,
`claim_count` is the number of results, and the report's `has_contradictions`
is true iff at least one result is contradiction-flagged. -/
theorem generate_trust_report_spec (reportId timestamp : String)
    (rs : List ValidationResult) :
    (∀ s, (generate_trust_report reportId timestamp rs).results s =
        (rs.filter (fun r => r.status = s)).length) ∧
    (generate_trust_report reportId timestamp rs).results Status.SUPPORTED +
        (generate_trust_report reportId timestamp rs).results Status.PARTIALLY_SUPPORTED +
        (generate_trust_report reportId timestamp rs).results Status.CONTRADICTED +
        (generate_trust_report reportId timestamp rs).results Status.UNVERIFIABLE =
      (generate_trust_report reportId timestamp rs).claim_count ∧
    (generate_trust_report reportId timestamp rs).claim_count = rs.length ∧
    ((generate_trust_report reportId timestamp rs).has_contradictions = true ↔
      ∃ r ∈ rs, r.has_contradictions = true) := by
  refine ⟨fun s => statusCounts_eq rs s, ?_, rfl, ?_⟩
  · show statusCounts rs _ + statusCounts rs _ + statusCounts rs _ + statusCounts rs _ = rs.length
    rw [statusCounts_eq, statusCounts_eq, statusCounts_eq, statusCounts_eq]
    exact filter_status_partition rs
  · show rs.any (fun r => r.has_contradictions) = true ↔ _
    simp [List.any_eq_true]

lemma urlToSourceId_foldl (l : List Source) (m : String → Option String) (u : String) :
    (l.foldl urlStep m) u =
      match urlToSourceId l u with
      | some v => some v
      | none => m u := by
  induction l generalizing m with
  | nil => simp [urlToSourceId]
  | cons s t ih =>
    rw [List.foldl_cons, ih (urlStep m s)]
    have h2 : urlToSourceId (s :: t) u =
        match urlToSourceId t u with
        | some v => some v
        | none => urlStep (fun _ => none) s u := by
      show ((s :: t).foldl urlStep (fun _ => none)) u = _
      rw [List.foldl_cons, ih (urlStep (fun _ => none) s)]
    rw [h2]
    cases urlToSourceId t u with
    | some v => rfl
    | none =>
      unfold urlStep
      by_cases h : u = s.url <;> simp [h]

lemma urlToSourceId_cons (s : Source) (t : List Source) (u : String) :
    urlToSourceId (s :: t) u =
      match urlToSourceId t u with
      | some v => some v
      | none => if u = s.url then some s.id else none := by
  unfold urlToSourceId
  rw [List.foldl_cons, urlToSourceId_foldl t (urlStep (fun _ => none) s) u]
  rfl

lemma urlToSourceId_mem {l : List Source} {u v : String}
    (h : urlToSourceId l u = some v) : ∃ s ∈ l, s.url = u ∧ s.id = v := by
  induction l with
  | nil => simp [urlToSourceId] at h
  | cons s t ih =>
    rw [urlToSourceId_cons] at h
    cases hl : urlToSourceId t u with
    | some w =>
      rw [hl] at h
      simp only at h
      rcases ih (hl.trans h) with ⟨s', hs', hu, hv⟩
      exact ⟨s', List.mem_cons_of_mem s hs', hu, hv⟩
    | none =>
      rw [hl] at h
      simp only at h
      by_cases hu : u = s.url
      · rw [if_pos hu] at h
        exact ⟨s, List.mem_cons_self s t, hu.symm, Option.some.inj h⟩
      · rw [if_neg hu] at h
        exact absurd h (by simp)

/-- C4: Claim linking maps each claim's `source_urls` through the
url-to-source-id mapping in order, keeping duplicates, dropping urls with no
matching source, and every resulting id is the id of some source of the same
run. -/
theorem claim_linking_spec (sources : List Source) (claims : List Claim) :
    (link_claims sources claims).length = claims.length ∧
    (∀ i (hi : i < claims.length),
      (link_claims sources claims).get? i =
        some (link_claim (urlToSourceId sources) (claims.get ⟨i, hi⟩))) ∧
    (∀ (claim : Claim) (u sid : String), urlToSourceId sources u = some sid →
      (link_claim (urlToSourceId sources)
        { claim with source_urls := [u] }).source_ids = [sid]) ∧
    (∀ (claim : Claim) (u : String), urlToSourceId sources u = none →
      (link_claim (urlToSourceId sources)
        { claim with source_urls := [u] }).source_ids = []) ∧
    (∀ (claim : Claim) (us1 us2 : List String),
      (link_claim (urlToSourceId sources)
          { claim with source_urls := us1 ++ us2 }).source_ids =
        (link_claim (urlToSourceId sources)
          { claim with source_urls := us1 }).source_ids ++
        (link_claim (urlToSourceId sources)
          { claim with source_urls := us2 }).source_ids) ∧
    (∀ (claim : Claim) (sid : String),
      sid ∈ (link_claim (urlToSourceId sources) claim).source_ids →
      ∃ s ∈ sources, s.id = sid) := by
  refine ⟨by simp [link_claims], ?_, ?_, ?_, ?_, ?_⟩
  · intro i hi
    simp only [link_claims]
    rw [List.get?_map, List.get?_eq_get hi]
    rfl
  · intro claim u sid h
    simp [link_claim, h]
  · intro claim u h
    simp [link_claim, h]
  · intro claim us1 us2
    simp [link_claim, List.filterMap_append]
  · intro claim sid h
    simp only [link_claim, List.mem_filterMap] at h
    rcases h with ⟨u, -, hu⟩
    rcases urlToSourceId_mem hu with ⟨s, hs, -, hv⟩
    exact ⟨s, hs, hv⟩

/-- Witness for **C4**: against a one-source list, a matched url links to
`["sA"]`, an unknown url links to `[]`, duplicates double up, and the id
`"sA"` produced for `claimW` is the id of a source in the list. -/
theorem claim_linking_spec_witness :
    (link_claim (urlToSourceId [sourceW])
        { claimW with source_urls := ["u1"] }).source_ids = ["sA"] ∧
    (link_claim (urlToSourceId [sourceW])
        { claimW with source_urls := ["missing"] }).source_ids = [] ∧
    (link_claim (urlToSourceId [sourceW])
        { claimW with source_urls := ["u1"] ++ ["u1"] }).source_ids =
      ["sA"] ++ ["sA"] ∧
    ∃ s ∈ [sourceW], s.id = "sA" :=
  ⟨(claim_linking_spec [sourceW] [claimW]).2.2.1 claimW "u1" "sA" rfl,
   (claim_linking_spec [sourceW] [claimW]).2.2.2.1 claimW "missing" rfl,
   by
     rw [(claim_linking_spec [sourceW] [claimW]).2.2.2.2.1 claimW ["u1"] ["u1"],
       (claim_linking_spec [sourceW] [claimW]).2.2.1 claimW "u1" "sA" rfl],
   (claim_linking_spec [sourceW] [claimW]).2.2.2.2.2
     { claimW with source_urls := ["u1"] } "sA"
     (by rw [(claim_linking_spec [sourceW] [claimW]).2.2.1 claimW "u1" "sA" rfl]
         exact List.mem_singleton.mpr rfl)⟩

lemma mem_claimSources_iff (claim : Claim) (sources : List Source) (s : Source) :
    s ∈ claimSources claim sources ↔
      s ∈ sources ∧ s.id ∈ claim.source_ids ∧
        ∃ c, s.content = some c ∧ c ≠ "" ∧ startsWithStr c "Error" = false := by
  cases hc : s.content with
  | none =>
    simp [claimSources, List.mem_filter, contentOk, hc]
  | some c =>
    simp only [claimSources, List.mem_filter, Bool.and_eq_true, contentOk, hc,
      List.contains, List.elem_iff, decide_eq_true_eq, Bool.not_eq_true',
      Option.some.injEq]
    constructor
    · rintro ⟨hs, hid, hne, herr⟩
      exact ⟨hs, hid, c, rfl, by simpa using hne, herr⟩
    · rintro ⟨hs, hid, c', hcc, hne, herr⟩
      subst hcc
      exact ⟨hs, hid, by simpa using hne, herr⟩

/-- C2 (amended): The validator's evidence set contains exactly the
sources whose id is cited by the claim and whose content is non-empty and
does not start with `"Error"` (the code's coarser prefix check, not the full
fetch-error sentinel); whenever this set is empty the validator returns the
`UNVERIFIABLE` / confidence-0 / no-contradictions fallback, identical for
every judgment capability (no capability call is made). -/
theorem evidence_selection_spec (claim : Claim) (sources : List Source) :
    (∀ s, s ∈ claimSources claim sources ↔
      s ∈ sources ∧ s.id ∈ claim.source_ids ∧
        ∃ c, s.content = some c ∧ c ≠ "" ∧ startsWithStr c "Error" = false) ∧
    (∀ judge : JudgeCapability, claimSources claim sources = [] →
      validate_claim judge claim sources = noEvidenceResult claim) := by
  refine ⟨mem_claimSources_iff claim sources, ?_⟩
  intro judge h
  unfold validate_claim
  simp only [h, if_pos]

/-- Counterexample for **C2** as stated: a cited source whose content is
non-empty and does not start with the fetch-error sentinel for its url
(`"Error fetching content from u"`) but is nonetheless excluded from the
evidence set, because the code filters on the bare prefix `"Error"`
(`validation.py` line 153). -/
theorem evidence_selection_cex :
    (Source.mk "s1" "u" none (some "Error codes overview")) ∈
        [Source.mk "s1" "u" none (some "Error codes overview")] ∧
    "s1" ∈ (Claim.mk "c1" "st" "vq" ["u"] ["s1"]).source_ids ∧
    (Source.mk "s1" "u" none (some "Error codes overview")).content =
        some "Error codes overview" ∧
    ("Error codes overview" : String) ≠ "" ∧
    startsWithStr "Error codes overview"
        ("Error fetching content from " ++
          (Source.mk "s1" "u" none (some "Error codes overview")).url) = false ∧
    (Source.mk "s1" "u" none (some "Error codes overview")) ∉
        claimSources (Claim.mk "c1" "st" "vq" ["u"] ["s1"])
          [Source.mk "s1" "u" none (some "Error codes overview")] := by
  refine ⟨by simp, by simp, rfl, by decide, by decide, ?_⟩
  intro hmem
  simp only [claimSources, List.mem_filter, Bool.and_eq_true] at hmem
  exact absurd hmem.2.2 (by decide)

/-- Witness for **C2 (amended)**: a claim whose only cited source holds a
fetch-error string has an empty evidence set, and the validator returns the
no-evidence fallback for an arbitrary judgment capability. -/
theorem evidence_selection_spec_witness :
    validate_claim (fun _ _ => Except.error "never called")
        (Claim.mk "c1" "st" "vq" ["u"] ["s1"])
        [Source.mk "s1" "u" none (some "Error fetching content from u: boom")] =
      noEvidenceResult (Claim.mk "c1" "st" "vq" ["u"] ["s1"]) :=
  (evidence_selection_spec (Claim.mk "c1" "st" "vq" ["u"] ["s1"])
      [Source.mk "s1" "u" none (some "Error fetching content from u: boom")]).2
    (fun _ _ => Except.error "never called") (by decide)

lemma validate_claim_fields (judge : JudgeCapability) (claim : Claim)
    (sources : List Source) :
    (validate_claim judge claim sources).claim_id = claim.id ∧
    (validate_claim judge claim sources).statement = claim.statement ∧
    (validate_claim judge claim sources).verification_question =
      claim.verification_question := by
  unfold validate_claim
  by_cases h : claimSources claim sources = []
  · simp only [h, if_pos]
    exact ⟨rfl, rfl, rfl⟩
  · simp only [h, if_neg, if_false]
    cases judge claim (claimSources claim sources) with
    | ok r => exact ⟨rfl, rfl, rfl⟩
    | error e => exact ⟨rfl, rfl, rfl⟩

lemma validate_claim_error (judge : JudgeCapability) (claim : Claim)
    (sources : List Source) (e : String)
    (h : judge claim (claimSources claim sources) = .error e) :
    (validate_claim judge claim sources).status = .UNVERIFIABLE ∧
    (validate_claim judge claim sources).confidence = 0 := by
  unfold validate_claim
  by_cases hcs : claimSources claim sources = []
  · simp only [hcs, if_pos]
    exact ⟨rfl, rfl⟩
  · simp only [hcs, if_neg, if_false, h]
    exact ⟨rfl, rfl⟩

/-- C3: For every non-empty claim list, every source list and every
behaviour of the judgment capability, validating all claims yields exactly one
result per claim in input order; each result's `claim_id`, `statement` and
`verification_question` are copied from the corresponding input claim
regardless of the capability's output, and a claim whose capability call
raises gets an `UNVERIFIABLE` result with confidence 0 while the batch
continues. -/
theorem validate_all_claims_spec (claims : List Claim) (_hne : claims ≠ [])
    (sources : List Source) (judge : JudgeCapability) :
    (validate_all_claims judge claims sources).length = claims.length ∧
    ∀ i (hi : i < claims.length),
      ∃ r, (validate_all_claims judge claims sources).get? i = some r ∧
        r.claim_id = (claims.get ⟨i, hi⟩).id ∧
        r.statement = (claims.get ⟨i, hi⟩).statement ∧
        r.verification_question = (claims.get ⟨i, hi⟩).verification_question ∧
        (∀ e, judge (claims.get ⟨i, hi⟩)
            (claimSources (claims.get ⟨i, hi⟩) sources) = .error e →
          r.status = .UNVERIFIABLE ∧ r.confidence = 0) := by
  refine ⟨by simp [validate_all_claims], ?_⟩
  intro i hi
  refine ⟨validate_claim judge (claims.get ⟨i, hi⟩) sources, ?_, ?_⟩
  · simp only [validate_all_claims]
    rw [List.get?_map, List.get?_eq_get hi]
    rfl
  · obtain ⟨h1, h2, h3⟩ := validate_claim_fields judge (claims.get ⟨i, hi⟩) sources
    exact ⟨h1, h2, h3, fun e he =>
      validate_claim_error judge (claims.get ⟨i, hi⟩) sources e he⟩

/-- Witness for **C3**: a singleton batch against an always-raising judgment
capability and an empty source list still yields one result whose identity
fields copy the input claim and whose status is `UNVERIFIABLE` with
confidence 0. -/
theorem validate_all_claims_spec_witness :
    (validate_all_claims (fun _ _ => Except.error "boom") [claimW] []).length = 1 ∧
    ∃ r, (validate_all_claims (fun _ _ => Except.error "boom")
            [claimW] []).get? 0 = some r ∧
      r.claim_id = claimW.id ∧
      r.statement = claimW.statement ∧
      r.verification_question = claimW.verification_question ∧
      (∀ e, (fun _ _ => Except.error "boom" : JudgeCapability) claimW
          (claimSources claimW []) = .error e →
        r.status = .UNVERIFIABLE ∧ r.confidence = 0) :=
  ⟨(validate_all_claims_spec [claimW] (by simp) [] (fun _ _ => Except.error "boom")).1,
   (validate_all_claims_spec [claimW] (by simp) [] (fun _ _ => Except.error "boom")).2
     0 (by simp)⟩

/-- C7 (amended): Source retrieval maps each source, in input order and
independently, to either the cleaned scraped text (3+-whitespace runs
collapsed to a double newline, then trimmed: `cleanContent`) or a sentinel
`"Error fetching content from {url}"` followed by `": {detail}"` (thrown
error) or by `". Firecrawl returned empty or invalid data."` (missing or
unusable text); one failure never stops the remaining sources and every
returned source has non-null content. -/
theorem fetch_sources_spec (scrape : ScrapeCapability) (sources : List Source) :
    (fetch_sources scrape sources).length = sources.length ∧
    (∀ i (hi : i < sources.length),
      (fetch_sources scrape sources).get? i =
        some (fetchOne scrape (sources.get ⟨i, hi⟩))) ∧
    (∀ s markdown, scrape s.url = .ok (some markdown) →
      (fetchOne scrape s).content = some (cleanContent markdown)) ∧
    (∀ s, scrape s.url = .ok none →
      (fetchOne scrape s).content =
        some (fetchSentinelBase s.url ++ ". Firecrawl returned empty or invalid data.")) ∧
    (∀ s e, scrape s.url = .error e →
      (fetchOne scrape s).content = some (fetchSentinelBase s.url ++ ": " ++ e)) ∧
    (∀ s' ∈ fetch_sources scrape sources, s'.content.isSome = true) := by
  refine ⟨by simp [fetch_sources], ?_, ?_, ?_, ?_, ?_⟩
  · intro i hi
    simp only [fetch_sources]
    rw [List.get?_map, List.get?_eq_get hi]
    rfl
  · intro s markdown h
    simp [fetchOne, h]
  · intro s h
    simp only [fetchOne, h]
    rfl
  · intro s e h
    simp only [fetchOne, h]
    rfl
  · intro s' hs'
    rcases List.mem_map.mp hs' with ⟨s, -, rfl⟩
    unfold fetchOne
    cases h : scrape s.url with
    | ok o => cases o <;> simp
    | error e => simp

/-- Counterexample for **C7** as stated: when the scraping capability returns
no usable text, the written content is the base sentinel followed by
`". Firecrawl returned empty or invalid data."`, which is not of the claimed
form `"Error fetching content from {url}[: {detail}]"`. -/
theorem fetch_sources_cex :
    (fetchOne (fun _ => Except.ok none)
        (Source.mk "s0" "u" none none)).content =
      some "Error fetching content from u. Firecrawl returned empty or invalid data." ∧
    ¬ specSentinelForm "u"
        "Error fetching content from u. Firecrawl returned empty or invalid data." := by
  refine ⟨rfl, fun h => ?_⟩
  rcases h with h | h
  · exact absurd h (by decide)
  · exact absurd h (by decide)

/-- Witness for **C7 (amended)**: a two-source batch in which the first fetch
raises and the second succeeds; both sentinel/clean cases are produced, in
order, and both returned sources carry non-null content. -/
theorem fetch_sources_spec_witness :
    (fetch_sources
        (fun u => if u = "u1" then Except.error "boom" else Except.ok (some "a    b"))
        [Source.mk "s1" "u1" none none, Source.mk "s2" "u2" none none]).length = 2 ∧
    (fetchOne
        (fun u => if u = "u1" then Except.error "boom" else Except.ok (some "a    b"))
        (Source.mk "s1" "u1" none none)).content =
      some (fetchSentinelBase "u1" ++ ": " ++ "boom") ∧
    (fetchOne
        (fun u => if u = "u1" then Except.error "boom" else Except.ok (some "a    b"))
        (Source.mk "s2" "u2" none none)).content =
      some (cleanContent "a    b") ∧
    ∀ s' ∈ fetch_sources
        (fun u => if u = "u1" then Except.error "boom" else Except.ok (some "a    b"))
        [Source.mk "s1" "u1" none none, Source.mk "s2" "u2" none none],
      s'.content.isSome = true :=
  ⟨(fetch_sources_spec _ _).1,
   (fetch_sources_spec
      (fun u => if u = "u1" then Except.error "boom" else Except.ok (some "a    b"))
      [Source.mk "s1" "u1" none none, Source.mk "s2" "u2" none none]).2.2.2.2.1
     (Source.mk "s1" "u1" none none) "boom" rfl,
   (fetch_sources_spec
      (fun u => if u = "u1" then Except.error "boom" else Except.ok (some "a    b"))
      [Source.mk "s1" "u1" none none, Source.mk "s2" "u2" none none]).2.2.1
     (Source.mk "s2" "u2" none none) "a    b" rfl,
   (fetch_sources_spec _ _).2.2.2.2.2⟩

/-- C6: The pipeline entry point returns `none` exactly when extraction
fails, extraction yields zero claims, or the validation pass yields zero
results; in every other case it returns the triple of trust report,
validation results and extracted report, and when the extracted source list
is empty the retrieval step is skipped (the outcome does not depend on the
scraping capability). -/
theorem validate_report_spec (extractor : ExtractCapability)
    (scrape : ScrapeCapability) (judge : JudgeCapability)
    (run reportId timestamp report_text : String) :
    (validate_report extractor scrape judge run reportId timestamp report_text = none ↔
      extract_claims_and_sources extractor run report_text = none ∨
      ∃ ex, extract_claims_and_sources extractor run report_text = some ex ∧
        (ex.claims = [] ∨
          validate_all_claims judge ex.claims (pipelineSources scrape ex) = [])) ∧
    (∀ ex, extract_claims_and_sources extractor run report_text = some ex →
      ex.claims ≠ [] →
      validate_report extractor scrape judge run reportId timestamp report_text =
        some (generate_trust_report reportId timestamp
                (validate_all_claims judge ex.claims (pipelineSources scrape ex)),
              validate_all_claims judge ex.claims (pipelineSources scrape ex),
              ex)) ∧
    (∀ ex, extract_claims_and_sources extractor run report_text = some ex →
      ex.sources = [] →
      ∀ scrape2 : ScrapeCapability,
        validate_report extractor scrape judge run reportId timestamp report_text =
          validate_report extractor scrape2 judge run reportId timestamp report_text) := by
  cases hext : extract_claims_and_sources extractor run report_text with
  | none =>
    refine ⟨by simp [validate_report, hext], ?_, ?_⟩
    · intro ex hex
      exact absurd hex (by simp)
    · intro ex hex
      exact absurd hex (by simp)
  | some ex =>
    refine ⟨?_, ?_, ?_⟩
    · simp only [validate_report, hext]
      by_cases hc : ex.claims = []
      · simp [hc]
      · have hres : validate_all_claims judge ex.claims (pipelineSources scrape ex) ≠ [] := by
          simp [validate_all_claims, hc]
        simp [hc, hres]
    · intro ex' hex' hc
      obtain rfl : ex = ex' := Option.some.inj hex'
      have hres : validate_all_claims judge ex.claims (pipelineSources scrape ex) ≠ [] := by
        simp [validate_all_claims, hc]
      simp only [validate_report, hext, if_neg hc, if_neg hres]
    · intro ex' hex' hsrc scrape2
      obtain rfl : ex = ex' := Option.some.inj hex'
      have h1 : pipelineSources scrape ex = pipelineSources scrape2 ex := by
        simp [pipelineSources, hsrc]
      simp only [validate_report, hext, h1]

/-- Witness for **C6**: a successful run returns the full triple, and with an
empty extracted source list the outcome is the same under a working and a
failing scraping capability. -/
theorem validate_report_spec_witness :
    validate_report extractorW scrapeW judgeW "r0" "rep0" "t0" "text" =
      some (generate_trust_report "rep0" "t0"
              (validate_all_claims judgeW exLinkedW.claims
                (pipelineSources scrapeW exLinkedW)),
            validate_all_claims judgeW exLinkedW.claims
              (pipelineSources scrapeW exLinkedW),
            exLinkedW) ∧
    validate_report extractorNoSrcW scrapeW judgeW "r0" "rep0" "t0" "text" =
      validate_report extractorNoSrcW (fun _ => Except.error "down") judgeW
        "r0" "rep0" "t0" "text" :=
  ⟨(validate_report_spec extractorW scrapeW judgeW "r0" "rep0" "t0" "text").2.1
      exLinkedW rfl (by simp [exLinkedW]),
   (validate_report_spec extractorNoSrcW scrapeW judgeW "r0" "rep0" "t0" "text").2.2
      exNoSrcW rfl rfl (fun _ => Except.error "down")⟩

lemma urlToSourceId_singleton (s : Source) (u : String) :
    urlToSourceId [s] u = if u = s.url then some s.id else none := rfl

lemma urlToSourceId_eq_getLast (l : List Source) (u : String) :
    urlToSourceId l u =
      ((l.filter (fun s => s.url = u)).getLast?).map Source.id := by
  induction l using List.reverseRecOn with
  | nil => rfl
  | append_singleton t s ih =>
    have happ : urlToSourceId (t ++ [s]) u =
        match urlToSourceId [s] u with
        | some v => some v
        | none => urlToSourceId t u := by
      unfold urlToSourceId
      rw [List.foldl_append]
      exact urlToSourceId_foldl [s] _ u
    rw [happ, urlToSourceId_singleton, List.filter_append]
    by_cases h : s.url = u
    · rw [if_pos h.symm]
      have hfs : [s].filter (fun x => x.url = u) = [s] := by simp [h]
      rw [hfs, List.getLast?_concat]
      rfl
    · rw [if_neg (fun hh => h hh.symm)]
      have hfs : [s].filter (fun x => x.url = u) = [] := by simp [h]
      rw [hfs, List.append_nil]
      exact ih

/-- C10: When two or more sources share a url, the url-to-source-id
mapping retains only the last such source's id: every lookup returns the id
of the last matching source, a lookup of the duplicated url resolves to a
source occurring after the earlier duplicate, and the earlier duplicate's id
can never appear in any claim's linked `source_ids` (given the
system-assigned ids are distinct). -/
theorem duplicate_url_last_wins (l1 : List Source) (si : Source)
    (l2 : List Source) (sj : Source) (l3 : List Source)
    (hurl : si.url = sj.url)
    (hnd : ((l1 ++ si :: (l2 ++ sj :: l3)).map Source.id).Nodup) :
    (∀ u, urlToSourceId (l1 ++ si :: (l2 ++ sj :: l3)) u =
      (((l1 ++ si :: (l2 ++ sj :: l3)).filter
          (fun s => s.url = u)).getLast?).map Source.id) ∧
    (∃ slast ∈ l2 ++ sj :: l3, slast.url = si.url ∧
      urlToSourceId (l1 ++ si :: (l2 ++ sj :: l3)) si.url = some slast.id) ∧
    (∀ claim : Claim,
      si.id ∉ (link_claim (urlToSourceId (l1 ++ si :: (l2 ++ sj :: l3)))
        claim).source_ids) := by
  have hfil : ∀ u, si.url = u →
      (l1 ++ si :: (l2 ++ sj :: l3)).filter (fun s => s.url = u) =
        (l1.filter (fun s => s.url = u) ++ si :: l2.filter (fun s => s.url = u)) ++
          (sj :: l3.filter (fun s => s.url = u)) := by
    intro u hu
    have hsj : sj.url = u := by rw [← hu, hurl]
    simp [List.filter_append, List.filter_cons, hu, hsj]
  refine ⟨fun u => urlToSourceId_eq_getLast _ u, ?_, ?_⟩
  · rw [urlToSourceId_eq_getLast, hfil si.url rfl, List.getLast?_append]
    cases hlast : (sj :: l3.filter (fun s => s.url = si.url)).getLast? with
    | none =>
      exact absurd hlast (by simp)
    | some w =>
      have hwmem : w ∈ sj :: l3.filter (fun s => s.url = si.url) :=
        List.mem_of_mem_getLast? (Option.mem_def.mpr hlast)
      have hwsfx : w ∈ l2 ++ sj :: l3 := by
        rcases List.mem_cons.mp hwmem with rfl | hw3
        · exact List.mem_append_right l2 (List.mem_cons_self _ _)
        · exact List.mem_append_right l2
            (List.mem_cons_of_mem sj (List.mem_of_mem_filter hw3))
      have hwurl : w.url = si.url := by
        rcases List.mem_cons.mp hwmem with rfl | hw3
        · exact hurl.symm
        · simpa using List.of_mem_filter hw3
      exact ⟨w, hwsfx, hwurl, by simp [hlast]⟩
  · intro claim hmem
    simp only [link_claim, List.mem_filterMap] at hmem
    rcases hmem with ⟨u, -, hu⟩
    rw [urlToSourceId_eq_getLast] at hu
    rcases Option.map_eq_some'.mp hu with ⟨w, hw, hwid⟩
    have hwfil := List.mem_of_mem_getLast? (Option.mem_def.mpr hw)
    have hwL : w ∈ l1 ++ si :: (l2 ++ sj :: l3) := List.mem_of_mem_filter hwfil
    have hwu : w.url = u := by simpa using List.of_mem_filter hwfil
    have hsiL : si ∈ l1 ++ si :: (l2 ++ sj :: l3) :=
      List.mem_append_right l1 (List.mem_cons_self _ _)
    have hwsi : w = si := List.inj_on_of_nodup_map hnd hwL hsiL hwid
    have hsiu : si.url = u := hwsi ▸ hwu
    rw [hfil u hsiu, List.getLast?_append] at hw
    cases hlast : (sj :: l3.filter (fun s => s.url = u)).getLast? with
    | none =>
      exact absurd hlast (by simp)
    | some v =>
      rw [hlast] at hw
      simp only [Option.or_some, Option.some.injEq] at hw
      have hvmem : si ∈ sj :: l3.filter (fun s => s.url = u) := by
        rw [← hw.trans hwsi]
        exact List.mem_of_mem_getLast? (Option.mem_def.mpr hlast)
      have hvsfx : si ∈ l2 ++ sj :: l3 := by
        rcases List.mem_cons.mp hvmem with hsj | hv3
        · rw [hsj]
          exact List.mem_append_right l2 (List.mem_cons_self _ _)
        · exact List.mem_append_right l2
            (List.mem_cons_of_mem sj (List.mem_of_mem_filter hv3))
      have hsub : (si :: (l2 ++ sj :: l3)).Sublist
          (l1 ++ si :: (l2 ++ sj :: l3)) := List.sublist_append_right l1 _
      have hnd2 : ((si :: (l2 ++ sj :: l3)).map Source.id).Nodup :=
        hnd.sublist (hsub.map Source.id)
      rw [List.map_cons, List.nodup_cons] at hnd2
      exact hnd2.1 (List.mem_map_of_mem Source.id hvsfx)

/-- Witness for **C10**: with two sources `"a"` and `"b"` sharing url `"u"`,
the lookup of `"u"` resolves to a later duplicate (`"b"`), and `"a"` is not
linkable by a claim citing `"u"`. -/
theorem duplicate_url_last_wins_witness :
    (∃ slast ∈ [Source.mk "b" "u" none none],
      slast.url = "u" ∧
      urlToSourceId [Source.mk "a" "u" none none, Source.mk "b" "u" none none]
        "u" = some slast.id) ∧
    "a" ∉ (link_claim
        (urlToSourceId [Source.mk "a" "u" none none, Source.mk "b" "u" none none])
        (Claim.mk "c" "s" "q" ["u"] [])).source_ids :=
  ⟨(duplicate_url_last_wins [] (Source.mk "a" "u" none none) []
      (Source.mk "b" "u" none none) [] rfl (by decide)).2.1,
   (duplicate_url_last_wins [] (Source.mk "a" "u" none none) []
      (Source.mk "b" "u" none none) [] rfl (by decide)).2.2
     (Claim.mk "c" "s" "q" ["u"] [])⟩

end TruthLayer
